import Mathlib

/-!
Verification of the per-room peer-connection negotiation engine of the
webinar-hosting-platform frontend, shallowly embedded from
src/src/hooks/useWebRTC.ts (the hook variant the room page consumes: it
destructures connectionStates, which only that variant returns), together
with the relay payload shapes of src/src/services/socketService.ts.

The registry of peer sessions, the per-user connection-state map and the
isInitialized re-entrancy flag become an explicit state record; every
handler becomes a function from that state to a new state paired with a
list of observable effects (relay sends, primitive destroys, signals
forwarded to a primitive, track replacements, console logs).
-/

namespace WebRTC

/-- A media stream, reduced to the ids of its audio and video tracks
(stream.getAudioTracks() and stream.getVideoTracks()). -/
structure MediaStream where
  audioTracks : List String
  videoTracks : List String
deriving Repr, DecidableEq

/-- An opaque signaling payload with the discriminating kind field the
dispatch looks at (signal.type in the source: offer, answer, or anything
else for ICE candidates). -/
structure SignalPayload where
  kind : String
  data : String
deriving Repr, DecidableEq

/-- A room participant as delivered by the relay
(socketService.ts, interface Participant): the fields the negotiation
hook reads. -/
structure Participant where
  userId : String
  username : String
  firstName : String
  lastName : String
  role : String
  audioEnabled : Option Bool
  videoEnabled : Option Bool
  screenSharing : Option Bool
deriving Repr, DecidableEq

/-- The black-box point-to-point connection primitive (a simple-peer
instance) as configured by the source: the initiator flag of the Peer
constructor, the one sender per track of the local stream attached at
construction (the source reaches them through peerInstance._pc.getSenders()
and matches on sender.track.kind), and the remote signals applied so far.
broken abstracts a primitive whose signal() call throws, which the source
wraps in try/catch. primId identifies the instance so destroys and
forwarded signals can be counted per primitive. -/
structure Primitive where
  primId : Nat
  initiator : Bool
  senders : List String
  signalsReceived : List SignalPayload
  broken : Bool
deriving Repr, DecidableEq

/-- One sender per track of the attached stream, tagged by track kind. -/
def senderKinds (ms : MediaStream) : List String :=
  ms.audioTracks.map (fun _ => "audio") ++ ms.videoTracks.map (fun _ => "video")

/-- Applying a remote signal to the primitive: appends to its received
signals, or throws when the instance is broken. -/
def Primitive.applySignal (p : Primitive) (s : SignalPayload) :
    Except String Primitive :=
  if p.broken then Except.error "signal error"
  else Except.ok { p with signalsReceived := p.signalsReceived ++ [s] }

/-- A PeerSession: interface PeerConnection of useWebRTC.ts, with the
owned primitive made explicit. -/
structure PeerConnection where
  peerId : String
  peer : Primitive
  stream : Option MediaStream
  userId : String
  username : String
  firstName : Option String
  lastName : Option String
  role : Option String
  audioEnabled : Option Bool
  videoEnabled : Option Bool
  screenSharing : Option Bool
deriving Repr, DecidableEq

/-- The mutable state the hook closes over: peersRef.current (the peer
registry, kept in lockstep with the peers useState), the connectionStates
map, and the isInitialized re-entrancy flag. nextPrimId numbers the
primitives created so far. -/
structure WebRTCState where
  peersRef : List PeerConnection
  connectionStates : List (String × String)
  isInitialized : Bool
  nextPrimId : Nat
deriving Repr, DecidableEq

/-- The idle state of a freshly mounted hook. -/
def initState : WebRTCState :=
  { peersRef := [], connectionStates := [], isInitialized := false, nextPrimId := 0 }

/-- The userIds of the sessions currently registered. -/
def userIds (s : WebRTCState) : List String :=
  s.peersRef.map (fun p => p.userId)

/-- Whether a session for the given userId is registered
(peersRef.current.find(p => p.userId === userId) succeeds). -/
def hasPeer (s : WebRTCState) (u : String) : Bool :=
  s.peersRef.any (fun p => p.userId == u)

/-- Observable effects of a handler: sends on the three relay signaling
channels, destroy of a primitive, a remote signal forwarded into a
primitive, a track replacement on a sender, or a console log. -/
inductive Effect where
  | sendOffer (targetUserId : String) (payload : SignalPayload)
  | sendAnswer (targetUserId : String) (payload : SignalPayload)
  | sendIceCandidate (targetUserId : String) (payload : SignalPayload)
  | destroy (primId : Nat)
  | forwardSignal (primId : Nat) (payload : SignalPayload)
  | replaceTrack (primId : Nat) (kind : String) (trackId : String)
  | log (msg : String)
deriving Repr, DecidableEq

/-- How many primitive destroys a list of effects performs. -/
def destroyCount (effs : List Effect) : Nat :=
  (effs.filter fun e =>
    match e with
    | Effect.destroy _ => true
    | _ => false).length

/-- How many track replacements of the given kind a list of effects
performs on the given primitive. -/
def replaceCount (pid : Nat) (kind : String) (effs : List Effect) : Nat :=
  (effs.filter fun e =>
    match e with
    | Effect.replaceTrack q k _ => q == pid && k == kind
    | _ => false).length

/-- How many answer sends target the given userId. -/
def answerCountTo (u : String) (effs : List Effect) : Nat :=
  (effs.filter fun e =>
    match e with
    | Effect.sendAnswer t _ => t == u
    | _ => false).length

/-- The relay channel a send effect uses, when it is a send. -/
def sendTarget : Effect → Option String
  | Effect.sendOffer t _ => some t
  | Effect.sendAnswer t _ => some t
  | Effect.sendIceCandidate t _ => some t
  | _ => none

/-- The payload a send effect carries, when it is a send. -/
def sendPayload : Effect → Option SignalPayload
  | Effect.sendOffer _ p => some p
  | Effect.sendAnswer _ p => some p
  | Effect.sendIceCandidate _ p => some p
  | _ => none

/-- The outbound signaling dispatch installed on every primitive created by
createPeer (useWebRTC.ts lines 47 to 57): offer kind to the offer channel,
answer kind to the answer channel, everything else to the ice-candidate
channel. -/
def dispatchSignal (targetUserId : String) (signal : SignalPayload) : Effect :=
  if signal.kind = "offer" then Effect.sendOffer targetUserId signal
  else if signal.kind = "answer" then Effect.sendAnswer targetUserId signal
  else Effect.sendIceCandidate targetUserId signal

/-- The outbound signaling dispatch installed on the primitive created by
handleOffer (useWebRTC.ts lines 172 to 179): answer kind to the answer
channel, everything else to the ice-candidate channel. -/
def dispatchResponderSignal (targetUserId : String) (signal : SignalPayload) : Effect :=
  if signal.kind = "answer" then Effect.sendAnswer targetUserId signal
  else Effect.sendIceCandidate targetUserId signal

/-- Modelled from the spec: the connection primitive itself is out of scope
(spec section 1 and section 6); with trickle disabled it emits exactly one
signaling message per session carrying the full session description. For
an initiator primitive that message has offer kind. -/
def initiatorEmission : SignalPayload :=
  { kind := "offer", data := "session-description" }

/-- Modelled from the spec: the responder primitive, trickle disabled,
emits exactly one answer-kind message once the remote offer has been
applied. -/
def responderEmission (offer : SignalPayload) : SignalPayload :=
  { kind := "answer", data := offer.data }

/-- setConnectionStates(prev => ({...prev, [userId]: value})): the object
spread replaces the entry when the key exists and appends it otherwise. -/
def setConn (m : List (String × String)) (u v : String) : List (String × String) :=
  if m.any (fun kv => kv.1 == u) then
    m.map (fun kv => if kv.1 == u then (u, v) else kv)
  else m ++ [(u, v)]

/-- setConnectionStates(prev => delete newStates[userId]): removes the
entry for the key. -/
def delConn (m : List (String × String)) (u : String) : List (String × String) :=
  m.filter (fun kv => kv.1 != u)

/-- createPeer (useWebRTC.ts lines 26 to 120): constructs a primitive with
the given initiator flag and the local stream attached, installs the
dispatch of lines 47 to 57, registers the session with the participant
metadata copied in, and marks the connection state connecting. The
one-shot emission of an initiator primitive, dispatched through its signal
handler, is recorded among the effects. -/
def createPeer (targetUserId targetUsername : String)
    (targetUserData : Participant) (stream : MediaStream) (initiator : Bool)
    (s : WebRTCState) : WebRTCState × List Effect :=
  let prim : Primitive :=
    { primId := s.nextPrimId, initiator := initiator,
      senders := senderKinds stream, signalsReceived := [], broken := false }
  let pc : PeerConnection :=
    { peerId := targetUserId, peer := prim, stream := none,
      userId := targetUserId, username := targetUsername,
      firstName := some targetUserData.firstName,
      lastName := some targetUserData.lastName,
      role := some targetUserData.role,
      audioEnabled := targetUserData.audioEnabled,
      videoEnabled := targetUserData.videoEnabled,
      screenSharing := targetUserData.screenSharing }
  ({ s with peersRef := s.peersRef ++ [pc],
            connectionStates := setConn s.connectionStates targetUserId "connecting",
            nextPrimId := s.nextPrimId + 1 },
   if initiator then [dispatchSignal targetUserId initiatorEmission] else [])

/-- removePeer (useWebRTC.ts lines 123 to 142): when a session for the
userId is registered, destroy its primitive (errors absorbed by the
try/catch), drop every registry entry with that userId, and delete the
connection-state entry; otherwise do nothing. -/
def removePeer (uid : String) (s : WebRTCState) : WebRTCState × List Effect :=
  match s.peersRef.find? (fun p => p.userId == uid) with
  | some pc =>
      ({ s with peersRef := s.peersRef.filter (fun p => p.userId != uid),
                connectionStates := delConn s.connectionStates uid },
       [Effect.destroy pc.peer.primId])
  | none => (s, [])

/-- Replaces the primitive of the first registered session with the given
userId (the source mutates the found PeerConnection object in place). -/
def setPeerOfFirst (uid : String) (pr : Primitive) :
    List PeerConnection → List PeerConnection
  | [] => []
  | p :: ps =>
      if p.userId == uid then { p with peer := pr } :: ps
      else p :: setPeerOfFirst uid pr ps

/-- handleOffer (useWebRTC.ts lines 145 to 237): returns with a console
error when no local stream is available; ignores the offer when a session
for fromUserId already exists; otherwise constructs a responder primitive
with the local stream attached, feeds it the offer, registers the session
with fallback metadata (firstName := fromUsername, lastName empty, role
attendee) and marks the connection state connecting. The one-shot answer
emission of the responder primitive, dispatched through the signal handler
of lines 172 to 179, is recorded among the effects. -/
def handleOffer (localStream : Option MediaStream)
    (fromUserId fromUsername : String) (offer : SignalPayload)
    (s : WebRTCState) : WebRTCState × List Effect :=
  match localStream with
  | none => (s, [Effect.log "No local stream available to handle offer"])
  | some stream =>
    match s.peersRef.find? (fun p => p.userId == fromUserId) with
    | some _ => (s, [])
    | none =>
      let prim : Primitive :=
        { primId := s.nextPrimId, initiator := false,
          senders := senderKinds stream, signalsReceived := [offer],
          broken := false }
      let pc : PeerConnection :=
        { peerId := fromUserId, peer := prim, stream := none,
          userId := fromUserId, username := fromUsername,
          firstName := some fromUsername,
          lastName := some "",
          role := some "attendee",
          audioEnabled := none, videoEnabled := none, screenSharing := none }
      ({ s with peersRef := s.peersRef ++ [pc],
                connectionStates := setConn s.connectionStates fromUserId "connecting",
                nextPrimId := s.nextPrimId + 1 },
       [Effect.forwardSignal s.nextPrimId offer,
        dispatchResponderSignal fromUserId (responderEmission offer)])

/-- handleAnswer (useWebRTC.ts lines 240 to 252): routes the payload to the
registered session for fromUserId, the signal call wrapped in try/catch;
logs and drops when no session exists. -/
def handleAnswer (fromUserId : String) (answer : SignalPayload)
    (s : WebRTCState) : WebRTCState × List Effect :=
  match s.peersRef.find? (fun p => p.userId == fromUserId) with
  | some pc =>
      match pc.peer.applySignal answer with
      | Except.ok p2 =>
          ({ s with peersRef := setPeerOfFirst fromUserId p2 s.peersRef },
           [Effect.forwardSignal pc.peer.primId answer])
      | Except.error _ => (s, [Effect.log "Error handling answer"])
  | none => (s, [Effect.log "No peer found for answer"])

/-- handleIceCandidate (useWebRTC.ts lines 255 to 267): routes the payload
to the registered session for fromUserId, the signal call wrapped in
try/catch; logs and drops when no session exists. -/
def handleIceCandidate (fromUserId : String) (candidate : SignalPayload)
    (s : WebRTCState) : WebRTCState × List Effect :=
  match s.peersRef.find? (fun p => p.userId == fromUserId) with
  | some pc =>
      match pc.peer.applySignal candidate with
      | Except.ok p2 =>
          ({ s with peersRef := setPeerOfFirst fromUserId p2 s.peersRef },
           [Effect.forwardSignal pc.peer.primId candidate])
      | Except.error _ => (s, [Effect.log "Error handling ICE candidate"])
  | none => (s, [Effect.log "No peer found for ICE candidate"])

/-- The participants.forEach loop of initializeWebRTC (useWebRTC.ts lines
284 to 295): one initiator createPeer per participant whose userId differs
from the local identity. -/
def initLoop (localUserId : String) (ms : MediaStream) :
    List Participant → WebRTCState → WebRTCState × List Effect
  | [], s => (s, [])
  | m :: rest, s =>
    if m.userId ≠ localUserId then
      let r1 := createPeer m.userId m.username m ms true s
      let r2 := initLoop localUserId ms rest r1.1
      (r2.1, r1.2 ++ r2.2)
    else initLoop localUserId ms rest s

/-- initializeWebRTC (useWebRTC.ts lines 270 to 298): a no-op when no
stream is available or the hook is already initialized; otherwise sets the
isInitialized flag and creates one initiator session per participant whose
userId differs from the local identity. -/
def initializeWebRTC (localUserId : String) (participants : List Participant)
    (stream : Option MediaStream) (s : WebRTCState) : WebRTCState × List Effect :=
  match stream with
  | none => (s, [])
  | some ms =>
    if s.isInitialized then (s, [])
    else initLoop localUserId ms participants { s with isInitialized := true }

/-- handleParticipantLeft (useWebRTC.ts lines 313 to 317): removePeer of
the departed userId. -/
def handleParticipantLeft (uid : String) (s : WebRTCState) :
    WebRTCState × List Effect :=
  removePeer uid s

/-- The per-session body of updateLocalStream (useWebRTC.ts lines 322 to
355): the first video track of the new stream replaces the track of the
video sender when both exist, then likewise for audio. -/
def replaceEffectsFor (newStream : MediaStream) (pc : PeerConnection) :
    List Effect :=
  (match newStream.videoTracks.head? with
   | some t =>
       if pc.peer.senders.contains "video" then
         [Effect.replaceTrack pc.peer.primId "video" t]
       else []
   | none => []) ++
  (match newStream.audioTracks.head? with
   | some t =>
       if pc.peer.senders.contains "audio" then
         [Effect.replaceTrack pc.peer.primId "audio" t]
       else []
   | none => [])

/-- updateLocalStream (useWebRTC.ts lines 320 to 356): iterates over the
registry issuing in-place track replacements; it registers or removes no
session and touches no other state. -/
def updateLocalStream (newStream : MediaStream) (s : WebRTCState) :
    WebRTCState × List Effect :=
  (s, s.peersRef.flatMap (replaceEffectsFor newStream))

/-- cleanup (useWebRTC.ts lines 358 to 376): clears the isInitialized
flag, destroys every registered primitive, and empties the registry and
the connection-state map. -/
def cleanup (s : WebRTCState) : WebRTCState × List Effect :=
  ({ s with peersRef := [], connectionStates := [], isInitialized := false },
   s.peersRef.map (fun pc => Effect.destroy pc.peer.primId))

/-- The ambient identity and local media the hook closes over. -/
structure Ctx where
  userId : String
  localStream : Option MediaStream
deriving Repr, DecidableEq

/-- The membership and signaling events the negotiation controller
consumes. -/
inductive Event where
  | offerEvt (fromUserId fromUsername : String) (payload : SignalPayload)
  | answerEvt (fromUserId : String) (payload : SignalPayload)
  | candidateEvt (fromUserId : String) (payload : SignalPayload)
  | initEvt (members : List Participant) (stream : Option MediaStream)
  | leftEvt (uid : String)
  | cleanupEvt
deriving Repr, DecidableEq

/-- Routing of one event to its handler. -/
def stepEvent (ctx : Ctx) : Event → WebRTCState → WebRTCState × List Effect
  | Event.offerEvt u un p, s => handleOffer ctx.localStream u un p s
  | Event.answerEvt u p, s => handleAnswer u p s
  | Event.candidateEvt u p, s => handleIceCandidate u p s
  | Event.initEvt members stream, s => initializeWebRTC ctx.userId members stream s
  | Event.leftEvt u, s => handleParticipantLeft u s
  | Event.cleanupEvt, s => cleanup s

/-- Running a sequence of events from a state. -/
def runEvents (ctx : Ctx) : List Event → WebRTCState → WebRTCState
  | [], s => s
  | e :: es, s => runEvents ctx es (stepEvent ctx e s).1

/-- Boolean membership: some element of the list is == the given value. -/
def memB [BEq α] (x : α) : List α → Bool
  | [] => false
  | y :: ys => y == x || memB x ys

/-- Boolean pairwise distinctness of a list. -/
def distinctB [BEq α] : List α → Bool
  | [] => true
  | y :: ys => !(memB y ys) && distinctB ys

/-- The side condition under which an event is known to preserve registry
uniqueness: an initEvt must be a no-op (already initialized, or no stream)
or carry a duplicate-free member list disjoint from the registry, because
initializeWebRTC performs no existing-session check; every other event is
unconditionally safe. -/
def initOk (s : WebRTCState) : Event → Bool
  | Event.initEvt members stream =>
      s.isInitialized || stream.isNone ||
        (distinctB (members.map (fun m => m.userId)) &&
         members.all (fun m => !(memB m.userId (userIds s))))
  | _ => true

/-- The side condition holds at every step of the run. -/
def safeSeq (ctx : Ctx) : WebRTCState → List Event → Bool
  | _, [] => true
  | s, e :: es => initOk s e && safeSeq ctx (stepEvent ctx e s).1 es

/-- The identity-and-metadata view of a registered session: userId,
username, the initiator flag of its primitive, and the denormalized
display fields. -/
def sessionView (p : PeerConnection) :
    String × String × Bool × Option String × Option String × Option String :=
  (p.userId, p.username, p.peer.initiator, p.firstName, p.lastName, p.role)

/-- The session view initializeWebRTC builds for a member: initiator role
and the member's real display fields. -/
def initiatorView (m : Participant) :
    String × String × Bool × Option String × Option String × Option String :=
  (m.userId, m.username, true, some m.firstName, some m.lastName, some m.role)

/-- A sample participant for concrete witnesses. -/
def aliceP : Participant :=
  { userId := "alice", username := "alice", firstName := "Alice",
    lastName := "A", role := "attendee",
    audioEnabled := none, videoEnabled := none, screenSharing := none }

/-- A sample stream with one audio and one video track. -/
def msBoth : MediaStream := { audioTracks := ["a1"], videoTracks := ["v1"] }

/-- A sample audio-only stream. -/
def msAudioOnly : MediaStream := { audioTracks := ["a1"], videoTracks := [] }

/-- A sample offer payload. -/
def demoOffer : SignalPayload := { kind := "offer", data := "blob" }

/-- The state holding the single initiator session toward alice that
initializeWebRTC creates for member list [aliceP]. -/
def sAlice : WebRTCState :=
  (initializeWebRTC "bob" [aliceP] (some msBoth) initState).1

/-- The state holding one responder session whose primitive has only an
audio sender: the result of answering an offer while the local stream is
audio-only. -/
def sAudioOnlyPeer : WebRTCState :=
  (handleOffer (some msAudioOnly) "carol" "carol" demoOffer initState).1

/-- The session record held by sAlice: the initiator session toward alice
with primitive 0 and both senders. -/
def alicePC : PeerConnection :=
  { peerId := "alice",
    peer := { primId := 0, initiator := true, senders := ["audio", "video"],
              signalsReceived := [], broken := false },
    stream := none, userId := "alice", username := "alice",
    firstName := some "Alice", lastName := some "A", role := some "attendee",
    audioEnabled := none, videoEnabled := none, screenSharing := none }

/-- The responder session toward dave created on top of sAlice by an
inbound offer: primitive 1, both senders. -/
def davePC : PeerConnection :=
  { peerId := "dave",
    peer := { primId := 1, initiator := false, senders := ["audio", "video"],
              signalsReceived := [demoOffer], broken := false },
    stream := none, userId := "dave", username := "dave",
    firstName := some "dave", lastName := some "", role := some "attendee",
    audioEnabled := none, videoEnabled := none, screenSharing := none }

/-- A replacement stream with fresh audio and video tracks. -/
def msNew : MediaStream := { audioTracks := ["a2"], videoTracks := ["v2"] }

/-- A state with two live sessions (alice and dave). -/
def sTwo : WebRTCState :=
  (handleOffer (some msBoth) "dave" "dave" demoOffer sAlice).1

/-- Symmetry of a failing boolean equality test. -/
theorem beq_false_symm [BEq α] [LawfulBEq α] {a b : α} (h : (a == b) = false) :
    (b == a) = false := by
  simp only [beq_eq_false_iff_ne] at h ⊢
  exact fun hba => h hba.symm

theorem memB_append [BEq α] (x : α) (l1 l2 : List α) :
    memB x (l1 ++ l2) = (memB x l1 || memB x l2) := by
  induction l1 with
  | nil => simp [memB]
  | cons y ys ih => simp [memB, ih, Bool.or_assoc]

theorem distinct_snoc_of [BEq α] [LawfulBEq α] {l : List α} {x : α}
    (hl : distinctB l = true) (hx : memB x l = false) :
    distinctB (l ++ [x]) = true := by
  induction l with
  | nil => simp [distinctB, memB]
  | cons y ys ih =>
    simp only [memB, Bool.or_eq_false_iff] at hx
    simp only [distinctB, Bool.and_eq_true, Bool.not_eq_true'] at hl
    have hrec := ih hl.2 hx.2
    have hmem : memB y (ys ++ [x]) = false := by
      rw [memB_append]
      simp [hl.1, memB, beq_false_symm hx.1]
    show distinctB (y :: (ys ++ [x])) = true
    simp [distinctB, hmem, hrec]

theorem memB_filter [BEq α] {x : α} {f : α → Bool} {l : List α}
    (h : memB x (l.filter f) = true) : memB x l = true := by
  induction l with
  | nil => exact absurd h (by simp [memB])
  | cons y ys ih =>
    by_cases hf : f y = true
    · rw [List.filter_cons, if_pos hf] at h
      simp only [memB, Bool.or_eq_true] at h ⊢
      rcases h with h | h
      · exact Or.inl h
      · exact Or.inr (ih h)
    · rw [List.filter_cons, if_neg hf] at h
      simp only [memB, Bool.or_eq_true]
      exact Or.inr (ih h)

theorem distinct_filter [BEq α] {l : List α} {f : α → Bool}
    (h : distinctB l = true) : distinctB (l.filter f) = true := by
  induction l with
  | nil => rfl
  | cons y ys ih =>
    simp only [distinctB, Bool.and_eq_true, Bool.not_eq_true'] at h
    by_cases hf : f y = true
    · rw [List.filter_cons, if_pos hf]
      have hm : memB y (ys.filter f) = false := by
        cases hmf : memB y (ys.filter f) with
        | true => exact absurd (memB_filter hmf) (by simp [h.1])
        | false => rfl
      simp [distinctB, hm, ih h.2]
    · rw [List.filter_cons, if_neg hf]
      exact ih h.2

theorem find?_none_of_any_false {l : List α} {p : α → Bool}
    (h : l.any p = false) : l.find? p = none := by
  induction l with
  | nil => rfl
  | cons y ys ih =>
    simp only [List.any_cons, Bool.or_eq_false_iff] at h
    simp [List.find?_cons, h.1, ih h.2]

theorem find?_isSome_of_any_true {l : List α} {p : α → Bool}
    (h : l.any p = true) : ∃ x, l.find? p = some x := by
  induction l with
  | nil => simp at h
  | cons y ys ih =>
    cases hy : p y with
    | true => exact ⟨y, by simp [List.find?_cons, hy]⟩
    | false =>
      simp only [List.any_cons, hy, Bool.false_or] at h
      rcases ih h with ⟨x, hx⟩
      exact ⟨x, by simp [List.find?_cons, hy, hx]⟩

theorem memB_map {f : α → β} [BEq β] (x : β) (l : List α) :
    memB x (l.map f) = l.any (fun a => f a == x) := by
  induction l with
  | nil => rfl
  | cons y ys ih => simp [memB, ih]

theorem memB_userIds (s : WebRTCState) (u : String) :
    memB u (userIds s) = hasPeer s u := by
  simp [userIds, hasPeer, memB_map]

theorem map_filter_userId (l : List PeerConnection) (u : String) :
    (l.filter (fun p => p.userId != u)).map (fun p => p.userId) =
      (l.map (fun p => p.userId)).filter (fun x => x != u) := by
  induction l with
  | nil => rfl
  | cons y ys ih =>
    rw [List.filter_cons, List.map_cons, List.filter_cons]
    cases h : y.userId != u with
    | true => simp [h, ih]
    | false => simp [h, ih]

theorem setPeerOfFirst_map_userId (u : String) (pr : Primitive)
    (l : List PeerConnection) :
    (setPeerOfFirst u pr l).map (fun p => p.userId) = l.map (fun p => p.userId) := by
  induction l with
  | nil => rfl
  | cons y ys ih =>
    unfold setPeerOfFirst
    cases h : y.userId == u with
    | true => simp [h]
    | false => simp [h, ih]

theorem find?_setPeerOfFirst {u : String} {pr : Primitive}
    {l : List PeerConnection} {pc : PeerConnection}
    (h : l.find? (fun q => q.userId == u) = some pc) :
    (setPeerOfFirst u pr l).find? (fun q => q.userId == u) =
      some { pc with peer := pr } := by
  induction l with
  | nil => simp at h
  | cons y ys ih =>
    cases hy : y.userId == u with
    | true =>
      simp only [List.find?_cons, hy] at h
      have hpc : y = pc := by injection h
      subst hpc
      simp [setPeerOfFirst, hy, List.find?_cons]
    | false =>
      simp only [List.find?_cons, hy] at h
      simp only [setPeerOfFirst, hy]
      simp only [Bool.false_eq_true, if_false]
      simp [List.find?_cons, hy, ih h]

theorem createPeer_userIds (t un : String) (td : Participant) (ms : MediaStream)
    (ini : Bool) (s : WebRTCState) :
    userIds (createPeer t un td ms ini s).1 = userIds s ++ [t] := by
  simp [createPeer, userIds]

theorem initLoop_isInitialized (lu : String) (ms : MediaStream) :
    ∀ (members : List Participant) (s : WebRTCState),
      (initLoop lu ms members s).1.isInitialized = s.isInitialized := by
  intro members
  induction members with
  | nil => intro s; rfl
  | cons m rest ih =>
    intro s
    by_cases h : m.userId = lu
    · simp [initLoop, h, ih]
    · simp [initLoop, h, ih, createPeer]

theorem initLoop_userIds (lu : String) (ms : MediaStream) :
    ∀ (members : List Participant) (s : WebRTCState),
      userIds (initLoop lu ms members s).1 =
        userIds s ++ (members.filter (fun m => m.userId != lu)).map (fun m => m.userId) := by
  intro members
  induction members with
  | nil => intro s; simp [initLoop]
  | cons m rest ih =>
    intro s
    by_cases h : m.userId = lu
    · simp [initLoop, h, ih, List.filter_cons, bne_iff_ne]
    · simp [initLoop, h, ih, List.filter_cons, bne_iff_ne, createPeer_userIds]

theorem initLoop_sessionView (lu : String) (ms : MediaStream) :
    ∀ (members : List Participant) (s : WebRTCState),
      ((initLoop lu ms members s).1).peersRef.map sessionView =
        s.peersRef.map sessionView ++
          (members.filter (fun m => m.userId != lu)).map initiatorView := by
  intro members
  induction members with
  | nil => intro s; simp [initLoop]
  | cons m rest ih =>
    intro s
    by_cases h : m.userId = lu
    · simp [initLoop, h, ih, List.filter_cons, bne_iff_ne]
    · simp [initLoop, h, ih, List.filter_cons, bne_iff_ne, createPeer,
        sessionView, initiatorView]

theorem initializeWebRTC_isInitialized (lu : String) (members : List Participant)
    (ms : MediaStream) (s : WebRTCState) :
    (initializeWebRTC lu members (some ms) s).1.isInitialized = true := by
  unfold initializeWebRTC
  cases h : s.isInitialized with
  | true => simpa using h
  | false => simp [initLoop_isInitialized]

theorem memB_eq_false_of [BEq α] {x y : α} {l : List α}
    (h : memB x l = false) (hy : y ∈ l) : (y == x) = false := by
  induction l with
  | nil => cases hy
  | cons z zs ih =>
    simp only [memB, Bool.or_eq_false_iff] at h
    rcases List.mem_cons.mp hy with rfl | hy'
    · exact h.1
    · exact ih h.2 hy'

theorem initLoop_distinct (lu : String) (ms : MediaStream) :
    ∀ (members : List Participant) (s : WebRTCState),
      distinctB (userIds s) = true →
      distinctB (members.map (fun m => m.userId)) = true →
      members.all (fun m => !(memB m.userId (userIds s))) = true →
      distinctB (userIds (initLoop lu ms members s).1) = true := by
  intro members
  induction members with
  | nil => intro s h1 _ _; simpa [initLoop] using h1
  | cons m rest ih =>
    intro s h1 h2 h3
    simp only [List.map_cons, distinctB, Bool.and_eq_true, Bool.not_eq_true'] at h2
    simp only [List.all_cons, Bool.and_eq_true, Bool.not_eq_true'] at h3
    simp only [initLoop]
    by_cases h : m.userId = lu
    · rw [if_neg (fun hc => hc h)]
      exact ih s h1 h2.2 h3.2
    · rw [if_pos h]
      apply ih
      · rw [createPeer_userIds]
        exact distinct_snoc_of h1 h3.1
      · exact h2.2
      · rw [List.all_eq_true]
        intro m' hm'
        have hm'rest : memB m'.userId (userIds s) = false := by
          have hrest := h3.2
          rw [List.all_eq_true] at hrest
          simpa using hrest m' hm'
        have hmm' : (m'.userId == m.userId) = false := by
          have hmm : memB m.userId (rest.map (fun m => m.userId)) = false := h2.1
          exact memB_eq_false_of hmm (List.mem_map_of_mem _ hm')
        have hne : (m.userId == m'.userId) = false := beq_false_symm hmm'
        simp only [createPeer_userIds, Bool.not_eq_true']
        rw [memB_append]
        simp [hm'rest, memB, hne]

theorem handleOffer_state_distinct (ls : Option MediaStream) (u un : String)
    (o : SignalPayload) (s : WebRTCState)
    (h1 : distinctB (userIds s) = true) :
    distinctB (userIds (handleOffer ls u un o s).1) = true := by
  cases ls with
  | none => exact h1
  | some ms =>
    cases hf : s.peersRef.find? (fun p => p.userId == u) with
    | some pc => simpa [handleOffer, hf] using h1
    | none =>
      have hany : s.peersRef.any (fun p => p.userId == u) = false := by
        cases ha : s.peersRef.any (fun p => p.userId == u) with
        | false => rfl
        | true =>
          rcases find?_isSome_of_any_true ha with ⟨x, hx⟩
          rw [hf] at hx
          cases hx
      have hmem : memB u (userIds s) = false := by
        rw [memB_userIds]; exact hany
      have : userIds (handleOffer (some ms) u un o s).1 = userIds s ++ [u] := by
        simp [handleOffer, hf, userIds]
      rw [this]
      exact distinct_snoc_of h1 hmem

theorem handleAnswer_userIds (u : String) (p : SignalPayload) (s : WebRTCState) :
    userIds (handleAnswer u p s).1 = userIds s := by
  cases hf : s.peersRef.find? (fun q => q.userId == u) with
  | none => simp [handleAnswer, hf]
  | some pc =>
    cases hb : pc.peer.broken with
    | true => simp [handleAnswer, hf, Primitive.applySignal, hb]
    | false =>
      simp [handleAnswer, hf, Primitive.applySignal, hb, userIds,
        setPeerOfFirst_map_userId]

theorem handleIceCandidate_userIds (u : String) (p : SignalPayload)
    (s : WebRTCState) :
    userIds (handleIceCandidate u p s).1 = userIds s := by
  cases hf : s.peersRef.find? (fun q => q.userId == u) with
  | none => simp [handleIceCandidate, hf]
  | some pc =>
    cases hb : pc.peer.broken with
    | true => simp [handleIceCandidate, hf, Primitive.applySignal, hb]
    | false =>
      simp [handleIceCandidate, hf, Primitive.applySignal, hb, userIds,
        setPeerOfFirst_map_userId]

theorem removePeer_distinct (u : String) (s : WebRTCState)
    (h1 : distinctB (userIds s) = true) :
    distinctB (userIds (removePeer u s).1) = true := by
  cases hf : s.peersRef.find? (fun p => p.userId == u) with
  | none => simpa [removePeer, hf] using h1
  | some pc =>
    have : userIds (removePeer u s).1 = (userIds s).filter (fun x => x != u) := by
      simp [removePeer, hf, userIds, map_filter_userId]
    rw [this]
    exact distinct_filter h1

theorem initializeWebRTC_distinct (lu : String) (members : List Participant)
    (stream : Option MediaStream) (s : WebRTCState)
    (h1 : distinctB (userIds s) = true)
    (hok : initOk s (Event.initEvt members stream) = true) :
    distinctB (userIds (initializeWebRTC lu members stream s).1) = true := by
  cases stream with
  | none => exact h1
  | some ms =>
    cases hi : s.isInitialized with
    | true => simpa [initializeWebRTC, hi] using h1
    | false =>
      simp only [initOk, hi, Option.isNone_some, Bool.false_or,
        Bool.and_eq_true] at hok
      rw [initializeWebRTC]
      simp only [hi, Bool.false_eq_true, if_false]
      apply initLoop_distinct
      · exact h1
      · exact hok.1
      · exact hok.2

theorem stepEvent_distinct (ctx : Ctx) (e : Event) (s : WebRTCState)
    (h1 : distinctB (userIds s) = true) (hok : initOk s e = true) :
    distinctB (userIds (stepEvent ctx e s).1) = true := by
  cases e with
  | offerEvt u un p => exact handleOffer_state_distinct ctx.localStream u un p s h1
  | answerEvt u p =>
    show distinctB (userIds (handleAnswer u p s).1) = true
    rw [handleAnswer_userIds]; exact h1
  | candidateEvt u p =>
    show distinctB (userIds (handleIceCandidate u p s).1) = true
    rw [handleIceCandidate_userIds]; exact h1
  | initEvt members stream => exact initializeWebRTC_distinct ctx.userId members stream s h1 hok
  | leftEvt u => exact removePeer_distinct u s h1
  | cleanupEvt => rfl

theorem runEvents_distinct (ctx : Ctx) :
    ∀ (events : List Event) (s : WebRTCState),
      distinctB (userIds s) = true → safeSeq ctx s events = true →
      distinctB (userIds (runEvents ctx events s)) = true := by
  intro events
  induction events with
  | nil => intro s h1 _; exact h1
  | cons e es ih =>
    intro s h1 hsafe
    simp only [safeSeq, Bool.and_eq_true] at hsafe
    exact ih _ (stepEvent_distinct ctx e s h1 hsafe.1) hsafe.2

theorem destroyCount_append (l1 l2 : List Effect) :
    destroyCount (l1 ++ l2) = destroyCount l1 + destroyCount l2 := by
  simp [destroyCount, List.filter_append]

theorem replaceCount_append (pid : Nat) (k : String) (l1 l2 : List Effect) :
    replaceCount pid k (l1 ++ l2) = replaceCount pid k l1 + replaceCount pid k l2 := by
  simp [replaceCount, List.filter_append]

theorem destroyCount_replaceEffectsFor (ns : MediaStream) (pc : PeerConnection) :
    destroyCount (replaceEffectsFor ns pc) = 0 := by
  unfold replaceEffectsFor
  cases hv : ns.videoTracks.head? <;> cases ha : ns.audioTracks.head? <;>
    cases hcv : pc.peer.senders.contains "video" <;>
      cases hca : pc.peer.senders.contains "audio" <;>
        simp [destroyCount, List.filter_append, hv, ha, hcv, hca]

theorem replaceCount_other {ns : MediaStream} {pc : PeerConnection} {pid : Nat}
    {k : String} (h : pc.peer.primId ≠ pid) :
    replaceCount pid k (replaceEffectsFor ns pc) = 0 := by
  have hb : (pc.peer.primId == pid) = false := by
    simpa [beq_eq_false_iff_ne] using h
  unfold replaceEffectsFor
  cases hv : ns.videoTracks.head? <;> cases ha : ns.audioTracks.head? <;>
    cases hcv : pc.peer.senders.contains "video" <;>
      cases hca : pc.peer.senders.contains "audio" <;>
        simp [replaceCount, List.filter_append, hv, ha, hcv, hca, hb]

theorem replaceCount_self_video (ns : MediaStream) (pc : PeerConnection) :
    replaceCount pc.peer.primId "video" (replaceEffectsFor ns pc) =
      cond (!ns.videoTracks.isEmpty && pc.peer.senders.contains "video") 1 0 := by
  have hav : (("audio" : String) == "video") = false := by decide
  unfold replaceEffectsFor
  cases hv : ns.videoTracks <;> cases ha : ns.audioTracks <;>
    cases hcv : pc.peer.senders.contains "video" <;>
      cases hca : pc.peer.senders.contains "audio" <;>
        simp [replaceCount, List.filter_append, hv, ha, hcv, hca, hav]

theorem replaceCount_self_audio (ns : MediaStream) (pc : PeerConnection) :
    replaceCount pc.peer.primId "audio" (replaceEffectsFor ns pc) =
      cond (!ns.audioTracks.isEmpty && pc.peer.senders.contains "audio") 1 0 := by
  have hva : (("video" : String) == "audio") = false := by decide
  unfold replaceEffectsFor
  cases hv : ns.videoTracks <;> cases ha : ns.audioTracks <;>
    cases hcv : pc.peer.senders.contains "video" <;>
      cases hca : pc.peer.senders.contains "audio" <;>
        simp [replaceCount, List.filter_append, hv, ha, hcv, hca, hva]

theorem replaceCount_flatMap_zero (ns : MediaStream) (pid : Nat) (k : String) :
    ∀ (l : List PeerConnection), (∀ q ∈ l, q.peer.primId ≠ pid) →
      replaceCount pid k (l.flatMap (replaceEffectsFor ns)) = 0 := by
  intro l
  induction l with
  | nil => intro _; rfl
  | cons q qs ih =>
    intro h
    rw [List.flatMap_cons, replaceCount_append,
      replaceCount_other (h q (List.mem_cons_self q qs)),
      ih (fun r hr => h r (List.mem_cons_of_mem q hr))]

theorem destroyCount_flatMap_replace (ns : MediaStream) :
    ∀ (l : List PeerConnection),
      destroyCount (l.flatMap (replaceEffectsFor ns)) = 0 := by
  intro l
  induction l with
  | nil => rfl
  | cons q qs ih =>
    rw [List.flatMap_cons, destroyCount_append, destroyCount_replaceEffectsFor, ih]

theorem replaceCount_flatMap_mem (ns : MediaStream) (k : String) :
    ∀ (l : List PeerConnection) (pc : PeerConnection), pc ∈ l →
      distinctB (l.map (fun q => q.peer.primId)) = true →
      replaceCount pc.peer.primId k (l.flatMap (replaceEffectsFor ns)) =
        replaceCount pc.peer.primId k (replaceEffectsFor ns pc) := by
  intro l
  induction l with
  | nil => intro pc h; cases h
  | cons q qs ih =>
    intro pc hmem hd
    simp only [List.map_cons, distinctB, Bool.and_eq_true, Bool.not_eq_true'] at hd
    rw [List.flatMap_cons, replaceCount_append]
    rcases List.mem_cons.mp hmem with rfl | hmem'
    · have hrest : ∀ r ∈ qs, r.peer.primId ≠ pc.peer.primId := by
        intro r hr
        have hb := memB_eq_false_of hd.1
          (List.mem_map_of_mem (fun q => q.peer.primId) hr)
        simpa [beq_eq_false_iff_ne] using hb
      rw [replaceCount_flatMap_zero ns _ k qs hrest]
      omega
    · have hq : q.peer.primId ≠ pc.peer.primId := by
        have hb := memB_eq_false_of hd.1
          (List.mem_map_of_mem (fun q => q.peer.primId) hmem')
        have : pc.peer.primId ≠ q.peer.primId := by
          simpa [beq_eq_false_iff_ne] using hb
        exact this.symm
      rw [replaceCount_other hq, ih pc hmem' hd.2]
      omega

/-- C1 (amended): registry uniqueness. Inbound offers, answers, candidates,
participant-left and cleanup preserve userId uniqueness unconditionally,
and an inbound offer for a userId that already has a session leaves the
state unchanged; initializeWebRTC, which performs no existing-session
check, preserves uniqueness when its member list is duplicate-free and
disjoint from the current registry (or when it is a no-op). Hence every
event sequence from the idle state whose initEvt steps satisfy that side
condition keeps the registry free of duplicate userIds. -/
theorem registry_userId_uniqueness_amended :
    (∀ (ctx : Ctx) (events : List Event),
        safeSeq ctx initState events = true →
        distinctB (userIds (runEvents ctx events initState)) = true) ∧
    (∀ (ctx : Ctx) (s : WebRTCState) (u un : String) (p : SignalPayload),
        hasPeer s u = true →
        (stepEvent ctx (Event.offerEvt u un p) s).1 = s) := by
  constructor
  · intro ctx events hsafe
    exact runEvents_distinct ctx events initState rfl hsafe
  · intro ctx s u un p hp
    show (handleOffer ctx.localStream u un p s).1 = s
    cases ls : ctx.localStream with
    | none => rfl
    | some ms =>
      rcases find?_isSome_of_any_true hp with ⟨x, hx⟩
      simp [handleOffer, hx]

/-- C1 counterexample: the claim as stated fails. An inbound offer from
alice processed before the first initializeWebRTC call creates a responder
session for alice; the subsequent initializeWebRTC([alice]) creates an
initiator session for alice without checking the registry, leaving two
sessions with the same userId. -/
theorem offer_then_init_duplicate_userId :
    distinctB (userIds (runEvents { userId := "bob", localStream := some msBoth }
      [Event.offerEvt "alice" "alice" demoOffer,
       Event.initEvt [aliceP] (some msBoth)] initState)) = false := by
  decide

/-- Witness for C1: a safe sequence (initEvt into an empty registry, an
offer, a leave, a cleanup) keeps userIds distinct, and an offer for the
already-registered alice leaves the state unchanged. -/
theorem registry_userId_uniqueness_amended_witness :
    distinctB (userIds (runEvents { userId := "bob", localStream := some msBoth }
      [Event.initEvt [aliceP] (some msBoth),
       Event.offerEvt "carol" "carol" demoOffer,
       Event.leftEvt "alice", Event.cleanupEvt] initState)) = true ∧
    (stepEvent { userId := "bob", localStream := some msBoth }
      (Event.offerEvt "alice" "alice" demoOffer) sAlice).1 = sAlice := by
  constructor
  · exact registry_userId_uniqueness_amended.1
      { userId := "bob", localStream := some msBoth } _ (by decide)
  · exact registry_userId_uniqueness_amended.2
      { userId := "bob", localStream := some msBoth } sAlice "alice" "alice"
      demoOffer (by decide)

/-- C2 (amended): after cleanup() the registry is empty, so an inbound
answer or candidate is dropped with no state change and no destroy; an
inbound offer also performs no destroy, but it is not guarded by the
torn-down flag, so it may create a session (see the counterexample). -/
theorem post_cleanup_signal_guard :
    ∀ (ls : Option MediaStream) (u un : String) (p : SignalPayload)
      (s : WebRTCState),
      handleAnswer u p (cleanup s).1 =
        ((cleanup s).1, [Effect.log "No peer found for answer"]) ∧
      handleIceCandidate u p (cleanup s).1 =
        ((cleanup s).1, [Effect.log "No peer found for ICE candidate"]) ∧
      destroyCount (handleOffer ls u un p (cleanup s).1).2 = 0 ∧
      destroyCount (handleAnswer u p (cleanup s).1).2 = 0 ∧
      destroyCount (handleIceCandidate u p (cleanup s).1).2 = 0 := by
  intro ls u un p s
  refine ⟨rfl, rfl, ?_, rfl, rfl⟩
  cases ls with
  | none => rfl
  | some ms =>
    simp [cleanup, handleOffer, destroyCount, dispatchResponderSignal,
      responderEmission]

/-- C2 counterexample: the claim as stated fails. handleOffer checks no
liveness flag: after cleanup() has torn everything down, an inbound offer
with local media present creates a fresh session, a registry mutation
beyond the cleanup. -/
theorem post_cleanup_offer_creates_session :
    ((cleanup sAlice).1).peersRef.length = 0 ∧
    ((handleOffer (some msBoth) "carol" "carol" demoOffer
        (cleanup sAlice).1).1).peersRef.length = 1 := by
  decide

/-- C3 (confirmed): once a first initializeWebRTC call with a stream has
run, the isInitialized guard makes any second call, with any member list
and stream, a strict no-op: the state after the second call is the state
after the first, with no effects. -/
theorem initializeWebRTC_idempotent :
    ∀ (lu : String) (m1 : List Participant) (ms1 : MediaStream)
      (m2 : List Participant) (st2 : Option MediaStream) (s0 : WebRTCState),
      initializeWebRTC lu m2 st2 (initializeWebRTC lu m1 (some ms1) s0).1 =
        ((initializeWebRTC lu m1 (some ms1) s0).1, []) := by
  intro lu m1 ms1 m2 st2 s0
  cases st2 with
  | none => rfl
  | some ms2 =>
    have h := initializeWebRTC_isInitialized lu m1 ms1 s0
    generalize hgen : (initializeWebRTC lu m1 (some ms1) s0).1 = s1 at h ⊢
    simp [initializeWebRTC, h]

/-- C4 (confirmed): handleOffer returns with no state change when local
media is absent or a session for the offerer already exists; otherwise it
appends exactly one responder session for the offerer, feeds it the offer
payload, and exactly one answer send targeting the offerer goes to the
relay. -/
theorem handleInboundOffer_spec :
    ∀ (ms : MediaStream) (u un : String) (o : SignalPayload) (s : WebRTCState),
      (handleOffer none u un o s).1 = s ∧
      (hasPeer s u = true → handleOffer (some ms) u un o s = (s, [])) ∧
      (hasPeer s u = false →
        ∃ (pc : PeerConnection) (pid : Nat),
          (handleOffer (some ms) u un o s).1.peersRef = s.peersRef ++ [pc] ∧
          pc.userId = u ∧
          pc.peer.initiator = false ∧
          pc.peer.signalsReceived = [o] ∧
          (handleOffer (some ms) u un o s).2 =
            [Effect.forwardSignal pid o,
             Effect.sendAnswer u (responderEmission o)] ∧
          answerCountTo u (handleOffer (some ms) u un o s).2 = 1) := by
  intro ms u un o s
  refine ⟨rfl, ?_, ?_⟩
  · intro hp
    rcases find?_isSome_of_any_true hp with ⟨x, hx⟩
    simp [handleOffer, hx]
  · intro hp
    have hf : s.peersRef.find? (fun p => p.userId == u) = none :=
      find?_none_of_any_false hp
    refine ⟨{ peerId := u,
              peer := { primId := s.nextPrimId, initiator := false,
                        senders := senderKinds ms, signalsReceived := [o],
                        broken := false },
              stream := none, userId := u, username := un,
              firstName := some un, lastName := some "", role := some "attendee",
              audioEnabled := none, videoEnabled := none, screenSharing := none },
            s.nextPrimId, ?_, rfl, rfl, rfl, ?_, ?_⟩
    · simp [handleOffer, hf]
    · simp [handleOffer, hf, dispatchResponderSignal, responderEmission]
    · simp [handleOffer, hf, dispatchResponderSignal, responderEmission,
        answerCountTo]

/-- Witness for C4: the no-media branch on the idle state, the
duplicate-offer branch on the state already holding alice, and the
creation branch for a fresh offer from carol with its single answer
send. -/
theorem handleInboundOffer_spec_witness :
    (handleOffer none "alice" "alice" demoOffer initState).1 = initState ∧
    handleOffer (some msBoth) "alice" "alice" demoOffer sAlice = (sAlice, []) ∧
    answerCountTo "carol"
      (handleOffer (some msBoth) "carol" "carol" demoOffer initState).2 = 1 := by
  refine ⟨(handleInboundOffer_spec msBoth "alice" "alice" demoOffer initState).1,
    (handleInboundOffer_spec msBoth "alice" "alice" demoOffer sAlice).2.1
      (by decide), ?_⟩
  rcases (handleInboundOffer_spec msBoth "carol" "carol" demoOffer
      initState).2.2 (by decide) with ⟨pc, pid, _, _, _, _, _, h6⟩
  exact h6

/-- C5 (confirmed): from a not-yet-initialized state, initializeWebRTC
appends exactly one initiator session per member whose userId differs from
the local identity, carrying that member's identity and display fields,
and none for the local identity. -/
theorem initializeWebRTC_creates_initiator_sessions :
    ∀ (lu : String) (members : List Participant) (ms : MediaStream)
      (s : WebRTCState),
      s.isInitialized = false →
      (initializeWebRTC lu members (some ms) s).1.peersRef.map sessionView =
        s.peersRef.map sessionView ++
          (members.filter (fun m => m.userId != lu)).map initiatorView := by
  intro lu members ms s h
  simp only [initializeWebRTC, h, Bool.false_eq_true, if_false]
  exact initLoop_sessionView lu ms members { s with isInitialized := true }

/-- Witness for C5, Scenario A: bob joining a room whose only other
participant is alice ends with exactly one session, keyed alice, in
initiator role. -/
theorem initializeWebRTC_creates_initiator_sessions_witness :
    sAlice.peersRef.map sessionView = [initiatorView aliceP] :=
  (initializeWebRTC_creates_initiator_sessions "bob" [aliceP] msBoth initState
    rfl).trans (by rfl)

theorem any_key_of_delConn (m : List (String × String)) (u : String) :
    (delConn m u).any (fun kv => kv.1 == u) = false := by
  induction m with
  | nil => rfl
  | cons y ys ih =>
    cases hy : y.1 == u with
    | true => simp [delConn, List.filter_cons, bne, hy, ih]
    | false => simp [delConn, List.filter_cons, bne, hy, ih]

/-- C6 (confirmed): handleParticipantLeft with a registered session drops
every registry entry for that userId, destroys the owned primitive exactly
once, and deletes the connection-state entry; with no registered session
it changes nothing and destroys nothing. -/
theorem handleParticipantLeft_spec :
    ∀ (s : WebRTCState) (u : String),
      (hasPeer s u = true →
        (handleParticipantLeft u s).1.peersRef =
          s.peersRef.filter (fun p => p.userId != u) ∧
        destroyCount (handleParticipantLeft u s).2 = 1 ∧
        (handleParticipantLeft u s).1.connectionStates.any
          (fun kv => kv.1 == u) = false) ∧
      (hasPeer s u = false → handleParticipantLeft u s = (s, [])) := by
  intro s u
  constructor
  · intro hp
    rcases find?_isSome_of_any_true hp with ⟨pc, hf⟩
    refine ⟨?_, ?_, ?_⟩
    · simp [handleParticipantLeft, removePeer, hf]
    · simp [handleParticipantLeft, removePeer, hf, destroyCount]
    · simp only [handleParticipantLeft, removePeer, hf]
      exact any_key_of_delConn s.connectionStates u
  · intro hp
    simp [handleParticipantLeft, removePeer, find?_none_of_any_false hp]

/-- Witness for C6, Scenario C: removing alice from the one-session state
empties the registry with one destroy and no state-map entry; removing an
unknown user is a strict no-op. -/
theorem handleParticipantLeft_spec_witness :
    (handleParticipantLeft "alice" sAlice).1.peersRef = [] ∧
    destroyCount (handleParticipantLeft "alice" sAlice).2 = 1 ∧
    handleParticipantLeft "zed" sAlice = (sAlice, []) := by
  have h1 := (handleParticipantLeft_spec sAlice "alice").1 (by decide)
  have h2 := (handleParticipantLeft_spec sAlice "zed").2 (by decide)
  exact ⟨h1.1.trans (by decide), h1.2.1, h2⟩

/-- C7 (confirmed): inbound answers and candidates never create or remove
a session, never touch the connection-state map and never destroy a
primitive; for an unknown userId they log and drop with the state exactly
unchanged; for a known userId the payload is forwarded into that session's
primitive, and a throwing primitive is caught and logged rather than
propagated. -/
theorem inbound_answer_candidate_routing :
    ∀ (s : WebRTCState) (u : String) (p : SignalPayload),
      userIds (handleAnswer u p s).1 = userIds s ∧
      (handleAnswer u p s).1.connectionStates = s.connectionStates ∧
      destroyCount (handleAnswer u p s).2 = 0 ∧
      userIds (handleIceCandidate u p s).1 = userIds s ∧
      (handleIceCandidate u p s).1.connectionStates = s.connectionStates ∧
      destroyCount (handleIceCandidate u p s).2 = 0 ∧
      (hasPeer s u = false →
        handleAnswer u p s = (s, [Effect.log "No peer found for answer"]) ∧
        handleIceCandidate u p s =
          (s, [Effect.log "No peer found for ICE candidate"])) ∧
      (∀ pc, s.peersRef.find? (fun q => q.userId == u) = some pc →
        pc.peer.broken = false →
        (handleAnswer u p s).2 = [Effect.forwardSignal pc.peer.primId p] ∧
        (handleAnswer u p s).1.peersRef.find? (fun q => q.userId == u) =
          some { pc with peer :=
            { pc.peer with
                signalsReceived := pc.peer.signalsReceived ++ [p] } }) ∧
      (∀ pc, s.peersRef.find? (fun q => q.userId == u) = some pc →
        pc.peer.broken = true →
        handleAnswer u p s = (s, [Effect.log "Error handling answer"])) ∧
      (∀ pc, s.peersRef.find? (fun q => q.userId == u) = some pc →
        pc.peer.broken = false →
        (handleIceCandidate u p s).2 = [Effect.forwardSignal pc.peer.primId p] ∧
        (handleIceCandidate u p s).1.peersRef.find? (fun q => q.userId == u) =
          some { pc with peer :=
            { pc.peer with
                signalsReceived := pc.peer.signalsReceived ++ [p] } }) ∧
      (∀ pc, s.peersRef.find? (fun q => q.userId == u) = some pc →
        pc.peer.broken = true →
        handleIceCandidate u p s =
          (s, [Effect.log "Error handling ICE candidate"])) := by
  intro s u p
  have hconnA : (handleAnswer u p s).1.connectionStates = s.connectionStates := by
    cases hf : s.peersRef.find? (fun q => q.userId == u) with
    | none => simp [handleAnswer, hf]
    | some pc =>
      cases hb : pc.peer.broken with
      | true => simp [handleAnswer, hf, Primitive.applySignal, hb]
      | false => simp [handleAnswer, hf, Primitive.applySignal, hb]
  have hdesA : destroyCount (handleAnswer u p s).2 = 0 := by
    cases hf : s.peersRef.find? (fun q => q.userId == u) with
    | none => simp [handleAnswer, hf, destroyCount]
    | some pc =>
      cases hb : pc.peer.broken with
      | true => simp [handleAnswer, hf, Primitive.applySignal, hb, destroyCount]
      | false => simp [handleAnswer, hf, Primitive.applySignal, hb, destroyCount]
  have hconnC : (handleIceCandidate u p s).1.connectionStates = s.connectionStates := by
    cases hf : s.peersRef.find? (fun q => q.userId == u) with
    | none => simp [handleIceCandidate, hf]
    | some pc =>
      cases hb : pc.peer.broken with
      | true => simp [handleIceCandidate, hf, Primitive.applySignal, hb]
      | false => simp [handleIceCandidate, hf, Primitive.applySignal, hb]
  have hdesC : destroyCount (handleIceCandidate u p s).2 = 0 := by
    cases hf : s.peersRef.find? (fun q => q.userId == u) with
    | none => simp [handleIceCandidate, hf, destroyCount]
    | some pc =>
      cases hb : pc.peer.broken with
      | true => simp [handleIceCandidate, hf, Primitive.applySignal, hb, destroyCount]
      | false => simp [handleIceCandidate, hf, Primitive.applySignal, hb, destroyCount]
  refine ⟨handleAnswer_userIds u p s, hconnA, hdesA,
    handleIceCandidate_userIds u p s, hconnC, hdesC, ?_, ?_, ?_, ?_, ?_⟩
  · intro hp
    have hf := find?_none_of_any_false hp
    exact ⟨by simp [handleAnswer, hf], by simp [handleIceCandidate, hf]⟩
  · intro pc hf hb
    constructor
    · simp [handleAnswer, hf, Primitive.applySignal, hb]
    · have hrw : (handleAnswer u p s).1.peersRef =
          setPeerOfFirst u
            { pc.peer with signalsReceived := pc.peer.signalsReceived ++ [p] }
            s.peersRef := by
        simp [handleAnswer, hf, Primitive.applySignal, hb]
      rw [hrw]
      exact find?_setPeerOfFirst hf
  · intro pc hf hb
    simp [handleAnswer, hf, Primitive.applySignal, hb]
  · intro pc hf hb
    constructor
    · simp [handleIceCandidate, hf, Primitive.applySignal, hb]
    · have hrw : (handleIceCandidate u p s).1.peersRef =
          setPeerOfFirst u
            { pc.peer with signalsReceived := pc.peer.signalsReceived ++ [p] }
            s.peersRef := by
        simp [handleIceCandidate, hf, Primitive.applySignal, hb]
      rw [hrw]
      exact find?_setPeerOfFirst hf
  · intro pc hf hb
    simp [handleIceCandidate, hf, Primitive.applySignal, hb]

/-- Witness for C7: an answer for an unknown user is dropped with the
state unchanged, and an answer as well as a candidate for the registered
alice are each forwarded into primitive 0. -/
theorem inbound_answer_candidate_routing_witness :
    handleAnswer "zed" demoOffer sAlice =
      (sAlice, [Effect.log "No peer found for answer"]) ∧
    (handleAnswer "alice" demoOffer sAlice).2 =
      [Effect.forwardSignal 0 demoOffer] ∧
    (handleIceCandidate "alice" demoOffer sAlice).2 =
      [Effect.forwardSignal 0 demoOffer] := by
  refine ⟨((inbound_answer_candidate_routing sAlice "zed"
      demoOffer).2.2.2.2.2.2.1 (by decide)).1, ?_, ?_⟩
  · exact ((inbound_answer_candidate_routing sAlice "alice"
      demoOffer).2.2.2.2.2.2.2.1 alicePC (by decide) rfl).1
  · exact ((inbound_answer_candidate_routing sAlice "alice"
      demoOffer).2.2.2.2.2.2.2.2.2.1 alicePC (by decide) rfl).1

/-- C8 (amended): updateLocalStream changes no state at all (no session
destroyed or recreated, the registry untouched) and performs no destroys;
for every registered session it issues exactly one track replacement per
track kind that is present in the new stream and for which the session's
connection has a sender of that kind, and zero replacements for a kind
whose sender is absent. -/
theorem updateLocalStream_track_substitution :
    ∀ (ns : MediaStream) (s : WebRTCState) (pc : PeerConnection),
      pc ∈ s.peersRef →
      distinctB (s.peersRef.map (fun q => q.peer.primId)) = true →
      (updateLocalStream ns s).1 = s ∧
      destroyCount (updateLocalStream ns s).2 = 0 ∧
      replaceCount pc.peer.primId "video" (updateLocalStream ns s).2 =
        cond (!ns.videoTracks.isEmpty && pc.peer.senders.contains "video") 1 0 ∧
      replaceCount pc.peer.primId "audio" (updateLocalStream ns s).2 =
        cond (!ns.audioTracks.isEmpty && pc.peer.senders.contains "audio") 1 0 := by
  intro ns s pc hmem hd
  refine ⟨rfl, destroyCount_flatMap_replace ns s.peersRef, ?_, ?_⟩
  · rw [show (updateLocalStream ns s).2 =
        s.peersRef.flatMap (replaceEffectsFor ns) from rfl,
      replaceCount_flatMap_mem ns "video" s.peersRef pc hmem hd,
      replaceCount_self_video]
  · rw [show (updateLocalStream ns s).2 =
        s.peersRef.flatMap (replaceEffectsFor ns) from rfl,
      replaceCount_flatMap_mem ns "audio" s.peersRef pc hmem hd,
      replaceCount_self_audio]

/-- Witness for C8, Scenario D: with two live sessions whose primitives
both carry audio and video senders, a both-kind replacement stream yields
exactly one video and one audio replacement per session and leaves the
state untouched. -/
theorem updateLocalStream_track_substitution_witness :
    replaceCount 0 "video" (updateLocalStream msNew sTwo).2 = 1 ∧
    replaceCount 0 "audio" (updateLocalStream msNew sTwo).2 = 1 ∧
    replaceCount 1 "video" (updateLocalStream msNew sTwo).2 = 1 ∧
    replaceCount 1 "audio" (updateLocalStream msNew sTwo).2 = 1 ∧
    (updateLocalStream msNew sTwo).1 = sTwo := by
  have h0 := updateLocalStream_track_substitution msNew sTwo alicePC
    (by decide) (by decide)
  have h1 := updateLocalStream_track_substitution msNew sTwo davePC
    (by decide) (by decide)
  exact ⟨h0.2.2.1.trans (by decide), h0.2.2.2.trans (by decide),
    h1.2.2.1.trans (by decide), h1.2.2.2.trans (by decide), h0.1⟩

/-- C8 counterexample: the claim as stated fails. A live responder session
answered while the local stream was audio-only has no video sender, so a
new stream containing a video track produces zero video replacements for
it, not one. -/
theorem updateLocalStream_missing_sender :
    sAudioOnlyPeer.peersRef.map (fun q => (q.peer.primId, q.peer.senders)) =
      [(0, ["audio"])] ∧
    msNew.videoTracks ≠ [] ∧
    replaceCount 0 "video" (updateLocalStream msNew sAudioOnlyPeer).2 = 0 := by
  decide

/-- C9 (confirmed): the outbound dispatch installed by createPeer always
produces exactly one send carrying the emitted payload to the session's
target: offer kind on the offer channel, answer kind on the answer
channel, and every other kind on the ice-candidate channel, so no
signaling message the primitive produces is discarded. -/
theorem outbound_dispatch_classification :
    ∀ (t : String) (sig : SignalPayload),
      sendTarget (dispatchSignal t sig) = some t ∧
      sendPayload (dispatchSignal t sig) = some sig ∧
      (sig.kind = "offer" → dispatchSignal t sig = Effect.sendOffer t sig) ∧
      (sig.kind = "answer" → dispatchSignal t sig = Effect.sendAnswer t sig) ∧
      (sig.kind ≠ "offer" → sig.kind ≠ "answer" →
        dispatchSignal t sig = Effect.sendIceCandidate t sig) := by
  intro t sig
  by_cases h1 : sig.kind = "offer"
  · exact ⟨by simp [dispatchSignal, h1, sendTarget],
      by simp [dispatchSignal, h1, sendPayload],
      fun _ => by simp [dispatchSignal, h1],
      fun h2 => absurd (h1.symm.trans h2) (by decide),
      fun h3 _ => absurd h1 h3⟩
  · by_cases h2 : sig.kind = "answer"
    · exact ⟨by simp [dispatchSignal, h1, h2, sendTarget],
        by simp [dispatchSignal, h1, h2, sendPayload],
        fun h3 => absurd h3 h1,
        fun _ => by simp [dispatchSignal, h1, h2],
        fun _ h4 => absurd h2 h4⟩
    · exact ⟨by simp [dispatchSignal, h1, h2, sendTarget],
        by simp [dispatchSignal, h1, h2, sendPayload],
        fun h3 => absurd h3 h1,
        fun h4 => absurd h4 h2,
        fun _ _ => by simp [dispatchSignal, h1, h2]⟩

/-- Witness for C9: an offer-kind, an answer-kind and a candidate-kind
payload each go out on their respective channel. -/
theorem outbound_dispatch_classification_witness :
    dispatchSignal "alice" { kind := "offer", data := "d" } =
      Effect.sendOffer "alice" { kind := "offer", data := "d" } ∧
    dispatchSignal "alice" { kind := "answer", data := "d" } =
      Effect.sendAnswer "alice" { kind := "answer", data := "d" } ∧
    dispatchSignal "alice" { kind := "candidate", data := "d" } =
      Effect.sendIceCandidate "alice" { kind := "candidate", data := "d" } :=
  ⟨(outbound_dispatch_classification "alice" _).2.2.1 rfl,
   (outbound_dispatch_classification "alice" _).2.2.2.1 rfl,
   (outbound_dispatch_classification "alice" _).2.2.2.2 (by decide) (by decide)⟩

/-- C10 (confirmed): a session created by the inbound-offer path stores
fallback metadata: firstName is the offerer's username, lastName the empty
string, role the attendee literal; a session created by createPeer (the
initializeWebRTC path) copies the participant's real firstName, lastName
and role. -/
theorem peer_metadata_provenance :
    ∀ (ms : MediaStream) (u un : String) (o : SignalPayload) (s : WebRTCState),
      (hasPeer s u = false →
        ∃ pc, (handleOffer (some ms) u un o s).1.peersRef = s.peersRef ++ [pc] ∧
          pc.userId = u ∧ pc.username = un ∧ pc.firstName = some un ∧
          pc.lastName = some "" ∧ pc.role = some "attendee") ∧
      (∀ (t tun : String) (td : Participant) (stream : MediaStream)
          (ini : Bool) (s2 : WebRTCState),
        ∃ pc2, (createPeer t tun td stream ini s2).1.peersRef =
            s2.peersRef ++ [pc2] ∧
          pc2.userId = t ∧ pc2.username = tun ∧
          pc2.firstName = some td.firstName ∧
          pc2.lastName = some td.lastName ∧ pc2.role = some td.role) := by
  intro ms u un o s
  constructor
  · intro hp
    have hf : s.peersRef.find? (fun p => p.userId == u) = none :=
      find?_none_of_any_false hp
    refine ⟨{ peerId := u,
              peer := { primId := s.nextPrimId, initiator := false,
                        senders := senderKinds ms, signalsReceived := [o],
                        broken := false },
              stream := none, userId := u, username := un,
              firstName := some un, lastName := some "", role := some "attendee",
              audioEnabled := none, videoEnabled := none, screenSharing := none },
            ?_, rfl, rfl, rfl, rfl, rfl⟩
    simp [handleOffer, hf]
  · intro t tun td stream ini s2
    exact ⟨_, rfl, rfl, rfl, rfl, rfl, rfl⟩

/-- Witness for C10: the session answering an offer from carol carries the
fallback triple, while the session createPeer builds for alice carries her
real display fields. -/
theorem peer_metadata_provenance_witness :
    (∃ pc, (handleOffer (some msAudioOnly) "carol" "carol" demoOffer
        initState).1.peersRef = initState.peersRef ++ [pc] ∧
      pc.userId = "carol" ∧ pc.username = "carol" ∧ pc.firstName = some "carol" ∧
      pc.lastName = some "" ∧ pc.role = some "attendee") ∧
    (∃ pc2, (createPeer "alice" "alice" aliceP msBoth true
        initState).1.peersRef = initState.peersRef ++ [pc2] ∧
      pc2.userId = "alice" ∧ pc2.username = "alice" ∧
      pc2.firstName = some "Alice" ∧ pc2.lastName = some "A" ∧
      pc2.role = some "attendee") :=
  ⟨(peer_metadata_provenance msAudioOnly "carol" "carol" demoOffer
      initState).1 (by decide),
   (peer_metadata_provenance msAudioOnly "carol" "carol" demoOffer
      initState).2 "alice" "alice" aliceP msBoth true initState⟩

end WebRTC
